import Mathlib

/-!
# Pipedream workflow resource: CRUD-to-REST mapping

A shallow embedding of `resources/resource_workflow.go`.  The four lifecycle
functions `resourceWorkflowCreate`, `resourceWorkflowRead`,
`resourceWorkflowUpdate` and `resourceWorkflowDelete` are translated statement
by statement.  What they call in Go's standard library (`net/http`,
`io/ioutil`, `encoding/json`) and in the Terraform plugin SDK
(`schema.ResourceData`) is modelled in the first part of the file:

* the remote side is an arbitrary deterministic transition system (`Env`),
  so every theorem holds for every server, stateful or not;
* the bytes of a body are kept in the form `encoding/json` classifies them
  (`Bytes`): either not a JSON text, or the text of one JSON value;
* a Go run-time panic (a failed type assertion) is an outcome of its own,
  distinct from returning `nil` and from returning an error.
-/

namespace Pipedream

/-! ## Go values -/

/-- A Go `error` value, kept as its message. -/
structure GoError where
  msg : String
deriving DecidableEq, Repr

/-- A JSON value.  The same tree stands for the Go value that `encoding/json`
stores into an `interface{}` when decoding it: `null` is the nil interface,
`str` a Go `string`, `number` a `float64` (the literal is one that a
`float64` can hold), `array` a `[]interface{}` and
`object` a `map[string]interface{}`.  The members of an `object` are kept in
document order and a key may be repeated, as in a JSON text. -/
inductive JsonValue where
  | null
  | bool (b : Bool)
  | number (literal : String)
  | str (s : String)
  | array (items : List JsonValue)
  | object (members : List (String × JsonValue))

/-- Contents of a byte slice, as `encoding/json` sees them: `invalid` is
any byte sequence that is not a JSON text, `json v` is the text of `v`. -/
inductive Bytes where
  | invalid
  | json (v : JsonValue)

/-- A Go `map[string]interface{}`: every key occurs at most once in a map
built with `mapStore` from the nil map `[]`. -/
abbrev GoMap := List (String × JsonValue)

/-- Go `m[k]`: the value stored under `k`, the nil interface when there is none
(indexing a nil map is allowed and yields the zero value). -/
def mapIndex : GoMap → String → JsonValue
  | [], _ => JsonValue.null
  | (k', v) :: rest, k => if k' = k then v else mapIndex rest k

/-- Go `m[k] = v`. -/
def mapStore : GoMap → String → JsonValue → GoMap
  | [], k, v => [(k, v)]
  | (k', v') :: rest, k, v =>
    if k' = k then (k, v) :: rest else (k', v') :: mapStore rest k v

mutual
/-- Nesting depth of a JSON value: how many arrays and objects are open at
its deepest point (0 for a scalar, 1 for an array or object of scalars). -/
def JsonValue.depth : JsonValue → Nat
  | JsonValue.array items => depthOfItems items + 1
  | JsonValue.object members => depthOfMembers members + 1
  | _ => 0
/-- Greatest nesting depth among the items of an array. -/
def depthOfItems : List JsonValue → Nat
  | [] => 0
  | v :: rest => max v.depth (depthOfItems rest)
/-- Greatest nesting depth among the member values of an object. -/
def depthOfMembers : List (String × JsonValue) → Nat
  | [] => 0
  | (_, v) :: rest => max v.depth (depthOfMembers rest)
end

/-- Constant `maxNestingDepth` of `encoding/json`: the scanner refuses a text
in which more than this many arrays and objects are open at once. -/
def maxNestingDepth : Nat := 10000

/-- A `json.Unmarshal(data, &result)` call with `result` a nil
`map[string]interface{}`: the map afterwards and the returned error.
The whole input is scanned before anything is stored, so a syntax error,
which includes nesting deeper than `maxNestingDepth`, stores nothing; a JSON
`null` is a no-op; an object stores its members in document order (a repeated
key overwrites); any other value is an `UnmarshalTypeError` and stores
nothing. -/
def jsonUnmarshal (data : Bytes) : GoMap × Option GoError :=
  match data with
  | Bytes.invalid => ([], some ⟨"invalid character looking for beginning of value"⟩)
  | Bytes.json v =>
    if maxNestingDepth < v.depth then ([], some ⟨"exceeded max depth"⟩)
    else
      match v with
      | JsonValue.null => ([], none)
      | JsonValue.object members =>
        (members.foldl (fun m kv => mapStore m kv.1 kv.2) [], none)
      | _ => ([], some ⟨"json: cannot unmarshal into Go value of type map[string]interface"⟩)

/-- Inserts a key/value pair into a list of pairs sorted by key.  Keys are
compared as sequences of code points, which is the byte order of their UTF-8
encodings. -/
def insertByKey (kv : String × String) : List (String × String) → List (String × String)
  | [] => [kv]
  | kv' :: rest =>
    if kv.1.data < kv'.1.data then kv :: kv' :: rest else kv' :: insertByKey kv rest

/-- The entries of a `map[string]string` in the order in which `encoding/json`
writes them: sorted by key. -/
def sortedByKey : List (String × String) → List (String × String)
  | [] => []
  | kv :: rest => insertByKey kv (sortedByKey rest)

/-- A `json.Marshal` call on a `map[string]string` given by its entries: the
text of the JSON object with one string member per entry, keys sorted.  It
cannot fail on such a map. -/
def jsonMarshal (m : List (String × String)) : Except GoError Bytes :=
  Except.ok (Bytes.json (JsonValue.object
    ((sortedByKey m).map (fun kv => (kv.1, JsonValue.str kv.2)))))

/-- Go type assertion `v.(string)` in its one-result form: `none` is the
run-time panic raised when `v` is the nil interface or holds another type. -/
def assertString : JsonValue → Option String
  | JsonValue.str s => some s
  | _ => none

/-! ## net/http and io/ioutil -/

/-- HTTP methods used by the resource. -/
inductive Method where
  | GET
  | POST
  | PUT
  | DELETE
deriving DecidableEq, Repr

/-- An outgoing `http.Request`: method, URL, `Content-Type` header if set,
body if any. -/
structure Request where
  method : Method
  url : String
  contentType : Option String
  body : Option Bytes

/-- A response body stream: `ioutil.ReadAll` either yields its bytes or
fails with a read error. -/
inductive ResponseBody where
  | stream (data : Bytes)
  | broken (err : GoError)

/-- An `http.Response` as far as the resource looks at it. -/
structure Response where
  StatusCode : Nat
  Body : ResponseBody

/-- Constant `http.StatusNotFound`. -/
def StatusNotFound : Nat := 404

/-- Everything outside the process.  `parseURL` says why `http.NewRequest`
rejects a URL, if it does; `roundTrip` is what `Client.Do` experiences for a
request in remote state `s`: a transport error or a response, and the next
remote state. -/
structure Env (σ : Type) where
  parseURL : String → Option GoError
  roundTrip : σ → Request → Except GoError Response × σ

/-- The remote state together with the requests handed to `Client.Do` so
far, oldest first. -/
structure World (σ : Type) where
  remote : σ
  sent : List Request

/-- Go `http.NewRequest(method, url, body)`. -/
def httpNewRequest {σ : Type} (env : Env σ) (method : Method) (url : String)
    (body : Option Bytes) : Except GoError Request :=
  match env.parseURL url with
  | some err => Except.error err
  | none => Except.ok ⟨method, url, none, body⟩

/-- Go `req.Header.Set("Content-Type", v)`. -/
def Request.setContentType (req : Request) (v : String) : Request :=
  { req with contentType := some v }

/-- Go `client.Do(req)` on a fresh `http.Client`. -/
def clientDo {σ : Type} (env : Env σ) (w : World σ) (req : Request) :
    Except GoError Response × World σ :=
  let r := env.roundTrip w.remote req
  (r.1, ⟨r.2, w.sent ++ [req]⟩)

/-- Go `http.Get(url)`. -/
def httpGet {σ : Type} (env : Env σ) (w : World σ) (url : String) :
    Except GoError Response × World σ :=
  match httpNewRequest env Method.GET url none with
  | Except.error err => (Except.error err, w)
  | Except.ok req => clientDo env w req

/-- Go `http.Post(url, contentType, body)`. -/
def httpPost {σ : Type} (env : Env σ) (w : World σ) (url : String) (contentType : String)
    (body : Bytes) : Except GoError Response × World σ :=
  match httpNewRequest env Method.POST url (some body) with
  | Except.error err => (Except.error err, w)
  | Except.ok req => clientDo env w (req.setContentType contentType)

/-- Go `ioutil.ReadAll(resp.Body)`. -/
def ioutilReadAll : ResponseBody → Except GoError Bytes
  | ResponseBody.stream data => Except.ok data
  | ResponseBody.broken err => Except.error err

/-! ## schema.ResourceData -/

/-- The `schema.ResourceData` of a workflow: the identifier slot and the two
`TypeString` attributes of the schema declared by `ResourceWorkflow`. -/
structure ResourceData where
  id : String
  name : String
  description : String
deriving DecidableEq, Repr

/-- SDK `d.Id()`. -/
def ResourceData.Id (d : ResourceData) : String := d.id

/-- SDK `d.SetId(v)`. -/
def ResourceData.SetId (d : ResourceData) (v : String) : ResourceData :=
  { d with id := v }

/-- SDK `d.Get(key).(string)` for the two attributes of the schema (a
`TypeString` attribute always reads as a string, the empty one when unset). -/
def ResourceData.Get (d : ResourceData) (key : String) : String :=
  if key = "name" then d.name
  else if key = "description" then d.description
  else ""

/-- Writes one attribute of the schema. -/
def ResourceData.put (d : ResourceData) (key : String) (s : String) : ResourceData :=
  if key = "name" then { d with name := s }
  else if key = "description" then { d with description := s }
  else d

/-- SDK `d.Set(key, value)` on a `TypeString` attribute, with the error it
returns (schema panics on error are off, the default).  A nil value removes
the attribute, which then reads as the empty string; a Go string is stored;
any other value is refused with an error and nothing is written. -/
def ResourceData.Set (d : ResourceData) (key : String) (value : JsonValue) :
    ResourceData × Option GoError :=
  match value with
  | JsonValue.null => (d.put key "", none)
  | JsonValue.str s => (d.put key s, none)
  | _ => (d, some ⟨key ++ ": expected type string, got unconvertible type"⟩)

/-! ## The resource -/

/-- How a lifecycle function ends: it returns `nil`, returns an error, or
the goroutine panics. -/
inductive Outcome where
  | returnedNil
  | returned (err : GoError)
  | panicked
deriving DecidableEq, Repr

/-- One run of a lifecycle function: how it ended, the `ResourceData` it
leaves behind and the world afterwards. -/
structure Run (σ : Type) where
  ret : Outcome
  d : ResourceData
  w : World σ

/-- Constant `baseURL`. -/
def baseURL : String := "https://api.pipedream.com/v1/workflows"

/-- Function `resourceWorkflowRead`. -/
def resourceWorkflowRead {σ : Type} (env : Env σ) (d : ResourceData) (w : World σ) : Run σ :=
  let id := d.Id
  match httpGet env w (baseURL ++ "/" ++ id) with
  | (Except.error err, w1) => ⟨Outcome.returned err, d, w1⟩
  | (Except.ok resp, w1) =>
    if resp.StatusCode = StatusNotFound then
      ⟨Outcome.returnedNil, d.SetId "", w1⟩
    else
      match ioutilReadAll resp.Body with
      | Except.error err => ⟨Outcome.returned err, d, w1⟩
      | Except.ok body =>
        let result := (jsonUnmarshal body).1
        let d1 := (d.Set "name" (mapIndex result "name")).1
        let d2 := (d1.Set "description" (mapIndex result "description")).1
        ⟨Outcome.returnedNil, d2, w1⟩

/-- Function `resourceWorkflowCreate`. -/
def resourceWorkflowCreate {σ : Type} (env : Env σ) (d : ResourceData) (w : World σ) : Run σ :=
  let name := d.Get "name"
  let description := d.Get "description"
  match jsonMarshal [("name", name), ("description", description)] with
  | Except.error err => ⟨Outcome.returned err, d, w⟩
  | Except.ok requestBody =>
    match httpPost env w baseURL "application/json" requestBody with
    | (Except.error err, w1) => ⟨Outcome.returned err, d, w1⟩
    | (Except.ok resp, w1) =>
      match ioutilReadAll resp.Body with
      | Except.error err => ⟨Outcome.returned err, d, w1⟩
      | Except.ok body =>
        let result := (jsonUnmarshal body).1
        match assertString (mapIndex result "id") with
        | none => ⟨Outcome.panicked, d, w1⟩
        | some v => resourceWorkflowRead env (d.SetId v) w1

/-- Function `resourceWorkflowUpdate`. -/
def resourceWorkflowUpdate {σ : Type} (env : Env σ) (d : ResourceData) (w : World σ) : Run σ :=
  let name := d.Get "name"
  let description := d.Get "description"
  let id := d.Id
  match jsonMarshal [("name", name), ("description", description)] with
  | Except.error err => ⟨Outcome.returned err, d, w⟩
  | Except.ok requestBody =>
    match httpNewRequest env Method.PUT (baseURL ++ "/" ++ id) (some requestBody) with
    | Except.error err => ⟨Outcome.returned err, d, w⟩
    | Except.ok req =>
      let req := req.setContentType "application/json"
      match clientDo env w req with
      | (Except.error err, w1) => ⟨Outcome.returned err, d, w1⟩
      | (Except.ok _, w1) => resourceWorkflowRead env d w1

/-- Function `resourceWorkflowDelete`. -/
def resourceWorkflowDelete {σ : Type} (env : Env σ) (d : ResourceData) (w : World σ) : Run σ :=
  let id := d.Id
  match httpNewRequest env Method.DELETE (baseURL ++ "/" ++ id) none with
  | Except.error err => ⟨Outcome.returned err, d, w⟩
  | Except.ok req =>
    match clientDo env w req with
    | (Except.error err, w1) => ⟨Outcome.returned err, d, w1⟩
    | (Except.ok _, w1) => ⟨Outcome.returnedNil, d.SetId "", w1⟩

/-! ## Vocabulary of the specification -/

/-- Value of member `k` among the members of a JSON object, the last one
when the key is repeated; `none` when no member has that key. -/
def lastMember : List (String × JsonValue) → String → Option JsonValue
  | [], _ => none
  | (k', v) :: rest, k =>
    match lastMember rest k with
    | some later => some later
    | none => if k' = k then some v else none

/-- Field `k` of a body: defined when the body is a JSON text, the text is
an object and the object has a member `k`. -/
def Bytes.field (b : Bytes) (k : String) : Option JsonValue :=
  match b with
  | Bytes.json (JsonValue.object members) => lastMember members k
  | _ => none

/-- Whether `encoding/json` accepts a body as a JSON text (what `json.Valid`
reports): it is the text of a JSON value nested no deeper than
`maxNestingDepth`. -/
def Bytes.accepted : Bytes → Bool
  | Bytes.invalid => false
  | Bytes.json v => decide (v.depth ≤ maxNestingDepth)

/-- Field `k` of a body as the resource gets it from the decoder: the field
when the decoder accepts the body and it has one, the nil interface in every
other case. -/
def Bytes.decodedField (b : Bytes) (k : String) : JsonValue :=
  if b.accepted then (b.field k).getD JsonValue.null else JsonValue.null

/-- An array nested `n` deep around a `null`: `deepArray 2` is `[[null]]`. -/
def deepArray : Nat → JsonValue
  | 0 => JsonValue.null
  | n + 1 => JsonValue.array [deepArray n]

/-- The GET request of a Read on identifier `id`. -/
def getRequest (id : String) : Request :=
  ⟨Method.GET, baseURL ++ "/" ++ id, none, none⟩

/-- The JSON object `{name, description}` of a local state. -/
def attributesJSON (d : ResourceData) : Bytes :=
  Bytes.json (JsonValue.object
    [("description", JsonValue.str d.description), ("name", JsonValue.str d.name)])

/-- The POST request of a Create. -/
def postRequest (d : ResourceData) : Request :=
  ⟨Method.POST, baseURL, some "application/json", some (attributesJSON d)⟩

/-- The PUT request of an Update. -/
def putRequest (d : ResourceData) : Request :=
  ⟨Method.PUT, baseURL ++ "/" ++ d.id, some "application/json", some (attributesJSON d)⟩

/-- The DELETE request of a Delete. -/
def deleteRequest (d : ResourceData) : Request :=
  ⟨Method.DELETE, baseURL ++ "/" ++ d.id, none, none⟩

/-! ## Example servers -/

/-- A network that accepts every URL and plays back a fixed list of replies,
one per request, and refuses the connection once the list is used up. -/
def scripted : Env (List (Except GoError Response)) where
  parseURL := fun _ => none
  roundTrip := fun s _ =>
    match s with
    | [] => (Except.error ⟨"connection refused"⟩, [])
    | reply :: rest => (reply, rest)

/-- Body `{"id": id}`. -/
def idBody (id : String) : ResponseBody :=
  ResponseBody.stream (Bytes.json (JsonValue.object [("id", JsonValue.str id)]))

/-- Body `{"name": name, "description": description}`. -/
def recordBody (name description : String) : ResponseBody :=
  ResponseBody.stream (Bytes.json (JsonValue.object
    [("name", JsonValue.str name), ("description", JsonValue.str description)]))

/-- Text `{"name": name, "description": description, "x": [[...[null]...]]}`
with `x` an array nested 10001 deep: a JSON object with both string fields,
nested deeper than `encoding/json` accepts. -/
def deepRecord (name description : String) : Bytes :=
  Bytes.json (JsonValue.object
    [("name", JsonValue.str name), ("description", JsonValue.str description),
      ("x", deepArray 10001)])

/-- Text `{"id": id, "x": [[...[null]...]]}` with `x` an array nested 10001
deep. -/
def deepId (id : String) : Bytes :=
  Bytes.json (JsonValue.object [("id", JsonValue.str id), ("x", deepArray 10001)])

/-- A workflow service holding at most one record, stored under the fixed
identifier `abc123`: POST stores the `name` and `description` it is sent and
answers with the identifier, GET on the record answers with what is stored,
PUT overwrites it, DELETE removes it; a missing record is a 404. -/
def echoServer : Env (Option (String × String)) where
  parseURL := fun _ => none
  roundTrip := fun s req =>
    match req.method, req.body, s with
    | Method.POST, some (Bytes.json (JsonValue.object
        [("description", JsonValue.str description), ("name", JsonValue.str name)])), _ =>
      (Except.ok ⟨201, idBody "abc123"⟩, some (name, description))
    | Method.POST, _, _ => (Except.ok ⟨400, ResponseBody.stream Bytes.invalid⟩, s)
    | Method.GET, _, some (name, description) =>
      if req.url = baseURL ++ "/" ++ "abc123" then
        (Except.ok ⟨200, recordBody name description⟩, s)
      else (Except.ok ⟨404, ResponseBody.stream Bytes.invalid⟩, s)
    | Method.PUT, some (Bytes.json (JsonValue.object
        [("description", JsonValue.str description), ("name", JsonValue.str name)])), some _ =>
      if req.url = baseURL ++ "/" ++ "abc123" then
        (Except.ok ⟨200, recordBody name description⟩, some (name, description))
      else (Except.ok ⟨404, ResponseBody.stream Bytes.invalid⟩, s)
    | Method.DELETE, _, some _ =>
      if req.url = baseURL ++ "/" ++ "abc123" then
        (Except.ok ⟨204, ResponseBody.stream Bytes.invalid⟩, none)
      else (Except.ok ⟨404, ResponseBody.stream Bytes.invalid⟩, s)
    | _, _, _ => (Except.ok ⟨404, ResponseBody.stream Bytes.invalid⟩, s)

/-! ## Lemmas on the library model -/

theorem mapIndex_mapStore (m : GoMap) (k k' : String) (v : JsonValue) :
    mapIndex (mapStore m k v) k' = if k = k' then v else mapIndex m k' := by
  induction m with
  | nil => simp [mapStore, mapIndex]
  | cons kv rest ih =>
    obtain ⟨k0, v0⟩ := kv
    by_cases h0 : k0 = k
    · subst h0
      by_cases h1 : k0 = k' <;> simp [mapStore, mapIndex, h1]
    · by_cases h1 : k0 = k'
      · subst h1
        have : ¬ k = k0 := fun h => h0 h.symm
        simp [mapStore, mapIndex, h0, this]
      · simp [mapStore, mapIndex, h0, h1, ih]

theorem mapIndex_foldl (members : List (String × JsonValue)) (m : GoMap) (k : String) :
    mapIndex (members.foldl (fun m kv => mapStore m kv.1 kv.2) m) k
      = (lastMember members k).getD (mapIndex m k) := by
  induction members generalizing m with
  | nil => simp [lastMember]
  | cons kv rest ih =>
    obtain ⟨k0, v0⟩ := kv
    simp only [List.foldl_cons, ih, mapIndex_mapStore, lastMember]
    cases hrest : lastMember rest k with
    | some later => simp
    | none =>
      by_cases h0 : k0 = k <;> simp [h0]

/-- What `result[k]` holds after `json.Unmarshal(body, &result)`: the field
`k` of the body when the decoder accepts the body and it has such a field, the
nil interface otherwise. -/
theorem mapIndex_jsonUnmarshal (b : Bytes) (k : String) :
    mapIndex (jsonUnmarshal b).1 k = b.decodedField k := by
  unfold Bytes.decodedField
  cases b with
  | invalid => simp [jsonUnmarshal, Bytes.accepted, mapIndex]
  | json v =>
    by_cases hdepth : v.depth ≤ maxNestingDepth
    · have hnot : ¬ maxNestingDepth < v.depth := Nat.not_lt.mpr hdepth
      cases v <;>
        simp [jsonUnmarshal, Bytes.accepted, Bytes.field, mapIndex, mapIndex_foldl, hdepth,
          hnot]
    · have hlt : maxNestingDepth < v.depth := Nat.lt_of_not_le hdepth
      simp [jsonUnmarshal, Bytes.accepted, mapIndex, hdepth, hlt]

theorem depth_deepArray (n : Nat) : (deepArray n).depth = n := by
  induction n with
  | zero => simp [deepArray, JsonValue.depth]
  | succ n ih => simp [deepArray, JsonValue.depth, depthOfItems, ih]

theorem scripted_get (resp : Response) (rest : List (Except GoError Response))
    (sent : List Request) (url : String) :
    httpGet scripted ⟨Except.ok resp :: rest, sent⟩ url
      = (Except.ok resp, ⟨rest, sent ++ [⟨Method.GET, url, none, none⟩]⟩) := rfl

theorem scripted_post (resp : Response) (rest : List (Except GoError Response))
    (sent : List Request) (url ct : String) (body : Bytes) :
    httpPost scripted ⟨Except.ok resp :: rest, sent⟩ url ct body
      = (Except.ok resp, ⟨rest, sent ++ [⟨Method.POST, url, some ct, some body⟩]⟩) := rfl

theorem deepArray_over_limit : maxNestingDepth ≤ (deepArray 10001).depth := by
  rw [depth_deepArray]
  decide

/-- An object with a member nested as deep as the limit is refused. -/
theorem refused_of_deep_member (before : List (String × JsonValue)) (k : String)
    (x : JsonValue) (hx : maxNestingDepth ≤ x.depth) :
    (Bytes.json (JsonValue.object (before ++ [(k, x)]))).accepted = false := by
  have hmem : x.depth ≤ depthOfMembers (before ++ [(k, x)]) := by
    induction before with
    | nil => simp [depthOfMembers]
    | cons kv rest ih =>
      obtain ⟨k0, v0⟩ := kv
      simp only [List.cons_append, depthOfMembers]
      exact le_trans ih (le_max_right _ _)
  simp only [Bytes.accepted, JsonValue.depth, decide_eq_false_iff_not, not_le]
  omega

theorem deepRecord_name (name description : String) :
    (deepRecord name description).field "name" = some (JsonValue.str name) := by
  simp [deepRecord, Bytes.field, lastMember]

theorem deepRecord_description (name description : String) :
    (deepRecord name description).field "description" = some (JsonValue.str description) := by
  simp [deepRecord, Bytes.field, lastMember]

theorem deepId_id (id : String) : (deepId id).field "id" = some (JsonValue.str id) := by
  simp [deepId, Bytes.field, lastMember]

theorem deepRecord_refused (name description : String) :
    (deepRecord name description).accepted = false :=
  refused_of_deep_member
    [("name", JsonValue.str name), ("description", JsonValue.str description)] "x"
    (deepArray 10001) deepArray_over_limit

theorem deepId_refused (id : String) : (deepId id).accepted = false :=
  refused_of_deep_member [("id", JsonValue.str id)] "x" (deepArray 10001)
    deepArray_over_limit

/-! ## Stepping lemmas for `resourceWorkflowRead` -/

theorem read_of_transport_error {σ : Type} (env : Env σ) (d : ResourceData) (w w1 : World σ)
    (err : GoError)
    (hget : httpGet env w (baseURL ++ "/" ++ d.id) = (Except.error err, w1)) :
    resourceWorkflowRead env d w = ⟨Outcome.returned err, d, w1⟩ := by
  simp [resourceWorkflowRead, ResourceData.Id, hget]

theorem read_of_not_found {σ : Type} (env : Env σ) (d : ResourceData) (w w1 : World σ)
    (resp : Response)
    (hget : httpGet env w (baseURL ++ "/" ++ d.id) = (Except.ok resp, w1))
    (hstatus : resp.StatusCode = 404) :
    resourceWorkflowRead env d w = ⟨Outcome.returnedNil, d.SetId "", w1⟩ := by
  simp [resourceWorkflowRead, ResourceData.Id, hget, hstatus, StatusNotFound]

theorem read_of_broken_body {σ : Type} (env : Env σ) (d : ResourceData) (w w1 : World σ)
    (resp : Response) (err : GoError)
    (hget : httpGet env w (baseURL ++ "/" ++ d.id) = (Except.ok resp, w1))
    (hstatus : resp.StatusCode ≠ 404)
    (hbody : resp.Body = ResponseBody.broken err) :
    resourceWorkflowRead env d w = ⟨Outcome.returned err, d, w1⟩ := by
  simp [resourceWorkflowRead, ResourceData.Id, hget, hstatus, StatusNotFound, hbody,
    ioutilReadAll]

theorem read_of_body {σ : Type} (env : Env σ) (d : ResourceData) (w w1 : World σ)
    (resp : Response) (b : Bytes)
    (hget : httpGet env w (baseURL ++ "/" ++ d.id) = (Except.ok resp, w1))
    (hstatus : resp.StatusCode ≠ 404)
    (hbody : resp.Body = ResponseBody.stream b) :
    resourceWorkflowRead env d w =
      ⟨Outcome.returnedNil,
        ((d.Set "name" (b.decodedField "name")).1.Set "description"
          (b.decodedField "description")).1, w1⟩ := by
  simp [resourceWorkflowRead, ResourceData.Id, hget, hstatus, StatusNotFound, hbody,
    ioutilReadAll, mapIndex_jsonUnmarshal]

/-! ## What a successful send leaves in the log -/

theorem httpGet_eq {σ : Type} (env : Env σ) (w : World σ) (url : String) :
    httpGet env w url =
      match env.parseURL url with
      | some err => (Except.error err, w)
      | none => clientDo env w ⟨Method.GET, url, none, none⟩ := by
  unfold httpGet httpNewRequest
  cases env.parseURL url <;> rfl

theorem httpPost_eq {σ : Type} (env : Env σ) (w : World σ) (url ct : String) (body : Bytes) :
    httpPost env w url ct body =
      match env.parseURL url with
      | some err => (Except.error err, w)
      | none => clientDo env w ⟨Method.POST, url, some ct, some body⟩ := by
  unfold httpPost httpNewRequest
  cases env.parseURL url <;> rfl

theorem clientDo_sent {σ : Type} (env : Env σ) (w : World σ) (req : Request) :
    (clientDo env w req).2.sent = w.sent ++ [req] := rfl

theorem httpGet_ok_sent {σ : Type} (env : Env σ) (w w1 : World σ) (url : String)
    (resp : Response) (h : httpGet env w url = (Except.ok resp, w1)) :
    w1.sent = w.sent ++ [⟨Method.GET, url, none, none⟩] := by
  rw [httpGet_eq] at h
  cases hp : env.parseURL url with
  | some err => simp [hp] at h
  | none =>
    simp only [hp] at h
    rw [← clientDo_sent env w, h]

theorem httpPost_ok_sent {σ : Type} (env : Env σ) (w w1 : World σ) (url ct : String)
    (body : Bytes) (resp : Response)
    (h : httpPost env w url ct body = (Except.ok resp, w1)) :
    w1.sent = w.sent ++ [⟨Method.POST, url, some ct, some body⟩] := by
  rw [httpPost_eq] at h
  cases hp : env.parseURL url with
  | some err => simp [hp] at h
  | none =>
    simp only [hp] at h
    rw [← clientDo_sent env w, h]

/-! ## Stepping lemmas for `resourceWorkflowCreate` -/

theorem create_marshal (d : ResourceData) :
    jsonMarshal [("name", d.Get "name"), ("description", d.Get "description")]
      = Except.ok (attributesJSON d) := by
  have hlt : ¬ ("name" : String).data < ("description" : String).data := by decide
  simp [jsonMarshal, sortedByKey, insertByKey, hlt, attributesJSON, ResourceData.Get]

theorem create_of_transport_error {σ : Type} (env : Env σ) (d : ResourceData)
    (w w1 : World σ) (err : GoError)
    (hpost : httpPost env w baseURL "application/json" (attributesJSON d)
      = (Except.error err, w1)) :
    resourceWorkflowCreate env d w = ⟨Outcome.returned err, d, w1⟩ := by
  simp [resourceWorkflowCreate, create_marshal, hpost]

theorem create_of_broken_body {σ : Type} (env : Env σ) (d : ResourceData)
    (w w1 : World σ) (resp : Response) (err : GoError)
    (hpost : httpPost env w baseURL "application/json" (attributesJSON d)
      = (Except.ok resp, w1))
    (hbody : resp.Body = ResponseBody.broken err) :
    resourceWorkflowCreate env d w = ⟨Outcome.returned err, d, w1⟩ := by
  simp [resourceWorkflowCreate, create_marshal, hpost, hbody, ioutilReadAll]

theorem create_of_body {σ : Type} (env : Env σ) (d : ResourceData)
    (w w1 : World σ) (resp : Response) (b : Bytes)
    (hpost : httpPost env w baseURL "application/json" (attributesJSON d)
      = (Except.ok resp, w1))
    (hbody : resp.Body = ResponseBody.stream b) :
    resourceWorkflowCreate env d w =
      match assertString (b.decodedField "id") with
      | none => ⟨Outcome.panicked, d, w1⟩
      | some v => resourceWorkflowRead env (d.SetId v) w1 := by
  simp [resourceWorkflowCreate, create_marshal, hpost, hbody, ioutilReadAll,
    mapIndex_jsonUnmarshal]

theorem assertString_eq_some (v : JsonValue) (s : String) :
    assertString v = some s ↔ v = JsonValue.str s := by
  cases v <;> simp [assertString]

theorem assertString_field (b : Bytes) (k s : String) :
    assertString (b.decodedField k) = some s
      ↔ (b.accepted = true ∧ b.field k = some (JsonValue.str s)) := by
  rw [assertString_eq_some]
  unfold Bytes.decodedField
  cases hacc : b.accepted with
  | false => simp
  | true =>
    cases h : b.field k with
    | none => simp
    | some v => simp

theorem decodedField_of_accepted (b : Bytes) (k : String) (v : JsonValue)
    (hacc : b.accepted = true) (hfield : b.field k = some v) :
    b.decodedField k = v := by
  simp [Bytes.decodedField, hacc, hfield]

theorem decodedField_of_refused (b : Bytes) (k : String) (hacc : b.accepted = false) :
    b.decodedField k = JsonValue.null := by
  simp [Bytes.decodedField, hacc]

theorem set_id (d : ResourceData) (k : String) (v : JsonValue) :
    (d.Set k v).1.id = d.id := by
  cases v <;> simp only [ResourceData.Set, ResourceData.put] <;> split_ifs <;> rfl

/-- The Identifier after a Read: unchanged, or cleared by a 404. -/
theorem read_id_cases {σ : Type} (env : Env σ) (d : ResourceData) (w : World σ) :
    (resourceWorkflowRead env d w).d.id = d.id
      ∨ ((resourceWorkflowRead env d w).d.id = ""
          ∧ (resourceWorkflowRead env d w).ret = Outcome.returnedNil
          ∧ ∃ (w2 : World σ) (resp : Response),
              httpGet env w (baseURL ++ "/" ++ d.id) = (Except.ok resp, w2)
                ∧ resp.StatusCode = 404) := by
  rcases hg : httpGet env w (baseURL ++ "/" ++ d.id) with ⟨reply, w2⟩
  cases reply with
  | error err => rw [read_of_transport_error env d w w2 err hg]; exact Or.inl rfl
  | ok resp =>
    by_cases hs : resp.StatusCode = 404
    · rw [read_of_not_found env d w w2 resp hg hs]
      exact Or.inr ⟨rfl, rfl, w2, resp, rfl, hs⟩
    · cases hb : resp.Body with
      | broken err => rw [read_of_broken_body env d w w2 resp err hg hs hb]; exact Or.inl rfl
      | stream b =>
        rw [read_of_body env d w w2 resp b hg hs hb]
        left
        simp only [set_id]

/-! ## Stepping lemmas for `resourceWorkflowUpdate` and `resourceWorkflowDelete` -/

theorem update_eq {σ : Type} (env : Env σ) (d : ResourceData) (w : World σ) :
    resourceWorkflowUpdate env d w =
      match env.parseURL (baseURL ++ "/" ++ d.id) with
      | some err => ⟨Outcome.returned err, d, w⟩
      | none =>
        match clientDo env w (putRequest d) with
        | (Except.error err, w1) => ⟨Outcome.returned err, d, w1⟩
        | (Except.ok _, w1) => resourceWorkflowRead env d w1 := by
  simp only [resourceWorkflowUpdate, create_marshal, httpNewRequest, ResourceData.Id]
  cases env.parseURL (baseURL ++ "/" ++ d.id) <;> rfl

theorem delete_eq {σ : Type} (env : Env σ) (d : ResourceData) (w : World σ) :
    resourceWorkflowDelete env d w =
      match env.parseURL (baseURL ++ "/" ++ d.id) with
      | some err => ⟨Outcome.returned err, d, w⟩
      | none =>
        match clientDo env w (deleteRequest d) with
        | (Except.error err, w1) => ⟨Outcome.returned err, d, w1⟩
        | (Except.ok _, w1) => ⟨Outcome.returnedNil, d.SetId "", w1⟩ := by
  simp only [resourceWorkflowDelete, httpNewRequest, ResourceData.Id]
  cases env.parseURL (baseURL ++ "/" ++ d.id) <;> rfl

/-! ## Read -/

/-- C1: whatever the local state, when the GET of a Read is answered with
status 404 (whatever the body of that response), `resourceWorkflowRead` returns
nil, the Identifier is empty afterwards, and name and description are what they
were before the call. -/
theorem read_not_found_clears_identifier {σ : Type} (env : Env σ) (d : ResourceData)
    (w : World σ) (resp : Response)
    (hget : (httpGet env w (baseURL ++ "/" ++ d.id)).1 = Except.ok resp)
    (hstatus : resp.StatusCode = 404) :
    (resourceWorkflowRead env d w).ret = Outcome.returnedNil
      ∧ (resourceWorkflowRead env d w).d.id = ""
      ∧ (resourceWorkflowRead env d w).d.name = d.name
      ∧ (resourceWorkflowRead env d w).d.description = d.description := by
  rcases hg : httpGet env w (baseURL ++ "/" ++ d.id) with ⟨reply, w1⟩
  rw [hg] at hget
  simp only at hget
  subst hget
  rw [read_of_not_found env d w w1 resp hg hstatus]
  simp [ResourceData.SetId]

theorem read_not_found_clears_identifier_witness :
    (httpGet scripted ⟨[Except.ok ⟨404, ResponseBody.broken ⟨"unexpected EOF"⟩⟩], []⟩
        (baseURL ++ "/" ++ "missing-id")).1
        = Except.ok ⟨404, ResponseBody.broken ⟨"unexpected EOF"⟩⟩
      ∧ (resourceWorkflowRead scripted ⟨"missing-id", "wf1", "first"⟩
        ⟨[Except.ok ⟨404, ResponseBody.broken ⟨"unexpected EOF"⟩⟩], []⟩).ret
        = Outcome.returnedNil
      ∧ (resourceWorkflowRead scripted ⟨"missing-id", "wf1", "first"⟩
        ⟨[Except.ok ⟨404, ResponseBody.broken ⟨"unexpected EOF"⟩⟩], []⟩).d.id = ""
      ∧ (resourceWorkflowRead scripted ⟨"missing-id", "wf1", "first"⟩
        ⟨[Except.ok ⟨404, ResponseBody.broken ⟨"unexpected EOF"⟩⟩], []⟩).d.name = "wf1"
      ∧ (resourceWorkflowRead scripted ⟨"missing-id", "wf1", "first"⟩
        ⟨[Except.ok ⟨404, ResponseBody.broken ⟨"unexpected EOF"⟩⟩], []⟩).d.description
        = "first" :=
  ⟨rfl, read_not_found_clears_identifier scripted ⟨"missing-id", "wf1", "first"⟩
    ⟨[Except.ok ⟨404, ResponseBody.broken ⟨"unexpected EOF"⟩⟩], []⟩
    ⟨404, ResponseBody.broken ⟨"unexpected EOF"⟩⟩ rfl rfl⟩

/-- C7 (counterexample): the GET of a Read is answered with status 200 and a
JSON object with string fields `name` = `wf1` and `description` = `first` that
also holds a member nested deeper than the decoder accepts: the decoder
refuses the whole text, its error is dropped, and Read returns nil with name
and description empty instead of `wf1` and `first`. -/
theorem read_deep_body_blanks_attributes :
    (deepRecord "wf1" "first").field "name" = some (JsonValue.str "wf1")
      ∧ (deepRecord "wf1" "first").field "description" = some (JsonValue.str "first")
      ∧ resourceWorkflowRead scripted ⟨"abc123", "stale", "old"⟩
          ⟨[Except.ok ⟨200, ResponseBody.stream (deepRecord "wf1" "first")⟩], []⟩
        = ⟨Outcome.returnedNil, ⟨"abc123", "", ""⟩, ⟨[], [getRequest "abc123"]⟩⟩
      ∧ (⟨"abc123", "", ""⟩ : ResourceData) ≠ ⟨"abc123", "wf1", "first"⟩ := by
  refine ⟨deepRecord_name _ _, deepRecord_description _ _, ?_, by decide⟩
  rw [read_of_body scripted ⟨"abc123", "stale", "old"⟩
    ⟨[Except.ok ⟨200, ResponseBody.stream (deepRecord "wf1" "first")⟩], []⟩
    ⟨[], [getRequest "abc123"]⟩ ⟨200, ResponseBody.stream (deepRecord "wf1" "first")⟩
    (deepRecord "wf1" "first") (scripted_get _ _ _ _) (by decide) rfl,
    decodedField_of_refused _ "name" (deepRecord_refused "wf1" "first"),
    decodedField_of_refused _ "description" (deepRecord_refused "wf1" "first")]
  rfl

/-- C7 (amended): when the GET of a Read is answered with a status other than
404 and a body that the decoder accepts (a JSON text nested no deeper than
10000) and that is an object with string fields `name` = `n` and
`description` = `dsc`, `resourceWorkflowRead` returns nil, the local name and
description are `n` and `dsc`, and the Identifier is unchanged; the status
code is otherwise not looked at, so the result is the same for every non-404
status. -/
theorem read_sets_attributes {σ : Type} (env : Env σ) (d : ResourceData)
    (w w1 : World σ) (resp : Response) (b : Bytes) (n dsc : String)
    (hget : httpGet env w (baseURL ++ "/" ++ d.id) = (Except.ok resp, w1))
    (hstatus : resp.StatusCode ≠ 404)
    (hbody : resp.Body = ResponseBody.stream b)
    (haccepted : b.accepted = true)
    (hname : b.field "name" = some (JsonValue.str n))
    (hdesc : b.field "description" = some (JsonValue.str dsc)) :
    resourceWorkflowRead env d w = ⟨Outcome.returnedNil, ⟨d.id, n, dsc⟩, w1⟩ := by
  rw [read_of_body env d w w1 resp b hget hstatus hbody,
    decodedField_of_accepted b "name" _ haccepted hname,
    decodedField_of_accepted b "description" _ haccepted hdesc]
  simp [ResourceData.Set, ResourceData.put]

theorem read_sets_attributes_witness :
    httpGet scripted ⟨[Except.ok ⟨500, recordBody "wf1" "first"⟩], []⟩
        (baseURL ++ "/" ++ "abc123")
        = (Except.ok ⟨500, recordBody "wf1" "first"⟩, ⟨[], [getRequest "abc123"]⟩)
      ∧ (Bytes.json (JsonValue.object
          [("name", JsonValue.str "wf1"), ("description", JsonValue.str "first")])).accepted
        = true
      ∧ resourceWorkflowRead scripted ⟨"abc123", "stale", "old"⟩
        ⟨[Except.ok ⟨500, recordBody "wf1" "first"⟩], []⟩
        = ⟨Outcome.returnedNil, ⟨"abc123", "wf1", "first"⟩, ⟨[], [getRequest "abc123"]⟩⟩ :=
  ⟨rfl, rfl, read_sets_attributes scripted ⟨"abc123", "stale", "old"⟩
    ⟨[Except.ok ⟨500, recordBody "wf1" "first"⟩], []⟩ ⟨[], [getRequest "abc123"]⟩
    ⟨500, recordBody "wf1" "first"⟩
    (Bytes.json (JsonValue.object
      [("name", JsonValue.str "wf1"), ("description", JsonValue.str "first")]))
    "wf1" "first" rfl (by decide) rfl rfl rfl rfl⟩

/-! ## Create -/

/-- C4 (counterexample): nesting deeper than the decoder accepts breaks the
round trip on either response.  A POST response that is a JSON object with
`id` = `abc123` and such a member makes Create panic; a GET response that is a
JSON object with `name` = `wf1`, `description` = `first` and such a member makes
Create return nil with name and description empty. -/
theorem create_deep_body_breaks_round_trip :
    ((deepId "abc123").field "id" = some (JsonValue.str "abc123")
        ∧ (resourceWorkflowCreate scripted ⟨"", "wf1", "first"⟩
            ⟨[Except.ok ⟨201, ResponseBody.stream (deepId "abc123")⟩,
              Except.ok ⟨200, recordBody "wf1" "first"⟩], []⟩).ret = Outcome.panicked)
      ∧ ((deepRecord "wf1" "first").field "name" = some (JsonValue.str "wf1")
        ∧ (deepRecord "wf1" "first").field "description" = some (JsonValue.str "first")
        ∧ (resourceWorkflowCreate scripted ⟨"", "wf1", "first"⟩
            ⟨[Except.ok ⟨201, idBody "abc123"⟩,
              Except.ok ⟨200, ResponseBody.stream (deepRecord "wf1" "first")⟩], []⟩).ret
            = Outcome.returnedNil
        ∧ (resourceWorkflowCreate scripted ⟨"", "wf1", "first"⟩
            ⟨[Except.ok ⟨201, idBody "abc123"⟩,
              Except.ok ⟨200, ResponseBody.stream (deepRecord "wf1" "first")⟩], []⟩).d
            = ⟨"abc123", "", ""⟩) := by
  refine ⟨⟨deepId_id _, ?_⟩, deepRecord_name _ _, deepRecord_description _ _, ?_⟩
  · rw [create_of_body scripted ⟨"", "wf1", "first"⟩
      ⟨[Except.ok ⟨201, ResponseBody.stream (deepId "abc123")⟩,
        Except.ok ⟨200, recordBody "wf1" "first"⟩], []⟩
      ⟨[Except.ok ⟨200, recordBody "wf1" "first"⟩], [postRequest ⟨"", "wf1", "first"⟩]⟩
      ⟨201, ResponseBody.stream (deepId "abc123")⟩ (deepId "abc123")
      (scripted_post _ _ _ _ _ _) rfl,
      decodedField_of_refused _ "id" (deepId_refused "abc123")]
    rfl
  · have hcreate := create_of_body scripted ⟨"", "wf1", "first"⟩
      ⟨[Except.ok ⟨201, idBody "abc123"⟩,
        Except.ok ⟨200, ResponseBody.stream (deepRecord "wf1" "first")⟩], []⟩
      ⟨[Except.ok ⟨200, ResponseBody.stream (deepRecord "wf1" "first")⟩],
        [postRequest ⟨"", "wf1", "first"⟩]⟩
      ⟨201, idBody "abc123"⟩
      (Bytes.json (JsonValue.object [("id", JsonValue.str "abc123")]))
      (scripted_post _ _ _ _ _ _) rfl
    have hassert := (assertString_field
      (Bytes.json (JsonValue.object [("id", JsonValue.str "abc123")])) "id" "abc123").mpr
      ⟨rfl, rfl⟩
    rw [hassert] at hcreate
    have hread := read_of_body scripted
      ((⟨"", "wf1", "first"⟩ : ResourceData).SetId "abc123")
      ⟨[Except.ok ⟨200, ResponseBody.stream (deepRecord "wf1" "first")⟩],
        [postRequest ⟨"", "wf1", "first"⟩]⟩
      ⟨[], [postRequest ⟨"", "wf1", "first"⟩, getRequest "abc123"]⟩
      ⟨200, ResponseBody.stream (deepRecord "wf1" "first")⟩ (deepRecord "wf1" "first")
      (scripted_get _ _ _ _) (by decide) rfl
    refine ⟨?_, ?_⟩
    · rw [hcreate]
      simp only
      rw [hread]
    · rw [hcreate]
      simp only
      rw [hread, decodedField_of_refused _ "name" (deepRecord_refused "wf1" "first"),
        decodedField_of_refused _ "description" (deepRecord_refused "wf1" "first")]
      rfl

/-- C4 (amended): Create round trip.  When the POST sent by Create is answered
with a body that the decoder accepts (a JSON text nested no deeper than 10000)
and that is an object whose `id` is the string `i`, and the GET on `baseURL/i`
that follows is answered with a status other than 404 and a body that the
decoder accepts and that is an object with string fields `name` = `n` and
`description` = `dsc`, then `resourceWorkflowCreate` returns nil with
Identifier `i`, name `n` and description `dsc`, having sent the POST carrying
the local name and description and then that GET; so with a server that stores
what it is sent and answers the GET with it, the final name and description
are the inputs. -/
theorem create_round_trip {σ : Type} (env : Env σ) (d : ResourceData)
    (w w1 w2 : World σ) (postResp getResp : Response) (pb gb : Bytes) (i n dsc : String)
    (hpost : httpPost env w baseURL "application/json" (attributesJSON d)
      = (Except.ok postResp, w1))
    (hpb : postResp.Body = ResponseBody.stream pb)
    (hpa : pb.accepted = true)
    (hid : pb.field "id" = some (JsonValue.str i))
    (hget : httpGet env w1 (baseURL ++ "/" ++ i) = (Except.ok getResp, w2))
    (hstatus : getResp.StatusCode ≠ 404)
    (hgb : getResp.Body = ResponseBody.stream gb)
    (hga : gb.accepted = true)
    (hname : gb.field "name" = some (JsonValue.str n))
    (hdesc : gb.field "description" = some (JsonValue.str dsc)) :
    (resourceWorkflowCreate env d w).ret = Outcome.returnedNil
      ∧ (resourceWorkflowCreate env d w).d = ⟨i, n, dsc⟩
      ∧ (resourceWorkflowCreate env d w).w.sent = w.sent ++ [postRequest d, getRequest i] := by
  rw [create_of_body env d w w1 postResp pb hpost hpb]
  have hassert := (assertString_field pb "id" i).mpr ⟨hpa, hid⟩
  simp only [hassert]
  rw [read_of_body env (d.SetId i) w1 w2 getResp gb hget hstatus hgb,
    decodedField_of_accepted gb "name" _ hga hname,
    decodedField_of_accepted gb "description" _ hga hdesc]
  refine ⟨rfl, by simp [ResourceData.Set, ResourceData.put, ResourceData.SetId], ?_⟩
  simp only
  rw [httpGet_ok_sent env w1 w2 _ getResp hget, httpPost_ok_sent env w w1 _ _ _ postResp hpost]
  simp [postRequest, getRequest]

theorem create_round_trip_witness :
    httpPost echoServer ⟨none, []⟩ baseURL "application/json"
        (attributesJSON ⟨"", "wf1", "first"⟩)
        = (Except.ok ⟨201, idBody "abc123"⟩,
            ⟨some ("wf1", "first"), [postRequest ⟨"", "wf1", "first"⟩]⟩)
      ∧ httpGet echoServer ⟨some ("wf1", "first"), [postRequest ⟨"", "wf1", "first"⟩]⟩
        (baseURL ++ "/" ++ "abc123")
        = (Except.ok ⟨200, recordBody "wf1" "first"⟩,
            ⟨some ("wf1", "first"), [postRequest ⟨"", "wf1", "first"⟩, getRequest "abc123"]⟩)
      ∧ (Bytes.json (JsonValue.object [("id", JsonValue.str "abc123")])).accepted = true
      ∧ (Bytes.json (JsonValue.object
          [("name", JsonValue.str "wf1"), ("description", JsonValue.str "first")])).accepted
        = true
      ∧ (resourceWorkflowCreate echoServer ⟨"", "wf1", "first"⟩ ⟨none, []⟩).ret
        = Outcome.returnedNil
      ∧ (resourceWorkflowCreate echoServer ⟨"", "wf1", "first"⟩ ⟨none, []⟩).d
        = ⟨"abc123", "wf1", "first"⟩
      ∧ (resourceWorkflowCreate echoServer ⟨"", "wf1", "first"⟩ ⟨none, []⟩).w.sent
        = [] ++ [postRequest ⟨"", "wf1", "first"⟩, getRequest "abc123"] :=
  ⟨rfl, rfl, rfl, rfl, create_round_trip echoServer ⟨"", "wf1", "first"⟩ ⟨none, []⟩
    ⟨some ("wf1", "first"), [postRequest ⟨"", "wf1", "first"⟩]⟩
    ⟨some ("wf1", "first"), [postRequest ⟨"", "wf1", "first"⟩, getRequest "abc123"]⟩
    ⟨201, idBody "abc123"⟩ ⟨200, recordBody "wf1" "first"⟩
    (Bytes.json (JsonValue.object [("id", JsonValue.str "abc123")]))
    (Bytes.json (JsonValue.object
      [("name", JsonValue.str "wf1"), ("description", JsonValue.str "first")]))
    "abc123" "wf1" "first" rfl rfl rfl rfl rfl (by decide) rfl rfl rfl rfl⟩

/-- C5: when the POST sent by Create is answered with a body that has no
string field `id` (the body is not valid JSON, or is valid JSON without an
`id` field, or its `id` is not a string), `resourceWorkflowCreate` does not
return nil: it panics, with the local state, the Identifier included, as it
was, and with the POST as the only request sent (no follow-up Read). -/
theorem create_malformed_id_fails {σ : Type} (env : Env σ) (d : ResourceData)
    (w w1 : World σ) (resp : Response) (b : Bytes)
    (hpost : httpPost env w baseURL "application/json" (attributesJSON d)
      = (Except.ok resp, w1))
    (hbody : resp.Body = ResponseBody.stream b)
    (hid : ∀ s : String, b.field "id" ≠ some (JsonValue.str s)) :
    (resourceWorkflowCreate env d w).ret = Outcome.panicked
      ∧ (resourceWorkflowCreate env d w).ret ≠ Outcome.returnedNil
      ∧ (resourceWorkflowCreate env d w).d = d
      ∧ (resourceWorkflowCreate env d w).w.sent = w.sent ++ [postRequest d] := by
  rw [create_of_body env d w w1 resp b hpost hbody]
  cases hassert : assertString (b.decodedField "id") with
  | some s => exact absurd ((assertString_field b "id" s).mp hassert).2 (hid s)
  | none =>
    refine ⟨rfl, by simp, rfl, ?_⟩
    simp only
    rw [httpPost_ok_sent env w w1 _ _ _ resp hpost]
    rfl

theorem create_malformed_id_fails_witness :
    (httpPost scripted ⟨[Except.ok ⟨200, ResponseBody.stream Bytes.invalid⟩], []⟩ baseURL
        "application/json" (attributesJSON ⟨"", "wf1", "first"⟩)
        = (Except.ok ⟨200, ResponseBody.stream Bytes.invalid⟩,
            ⟨[], [postRequest ⟨"", "wf1", "first"⟩]⟩))
      ∧ (∀ s : String, Bytes.invalid.field "id" ≠ some (JsonValue.str s))
      ∧ (resourceWorkflowCreate scripted ⟨"", "wf1", "first"⟩
          ⟨[Except.ok ⟨200, ResponseBody.stream Bytes.invalid⟩], []⟩).ret = Outcome.panicked
      ∧ (resourceWorkflowCreate scripted ⟨"", "wf1", "first"⟩
          ⟨[Except.ok ⟨200, ResponseBody.stream Bytes.invalid⟩], []⟩).ret
          ≠ Outcome.returnedNil
      ∧ (resourceWorkflowCreate scripted ⟨"", "wf1", "first"⟩
          ⟨[Except.ok ⟨200, ResponseBody.stream Bytes.invalid⟩], []⟩).d
          = ⟨"", "wf1", "first"⟩
      ∧ (resourceWorkflowCreate scripted ⟨"", "wf1", "first"⟩
          ⟨[Except.ok ⟨200, ResponseBody.stream Bytes.invalid⟩], []⟩).w.sent
          = [] ++ [postRequest ⟨"", "wf1", "first"⟩] :=
  ⟨rfl, fun s h => by simp [Bytes.field] at h,
    create_malformed_id_fails scripted ⟨"", "wf1", "first"⟩
      ⟨[Except.ok ⟨200, ResponseBody.stream Bytes.invalid⟩], []⟩
      ⟨[], [postRequest ⟨"", "wf1", "first"⟩]⟩
      ⟨200, ResponseBody.stream Bytes.invalid⟩ Bytes.invalid rfl rfl
      (fun s h => by simp [Bytes.field] at h)⟩

/-- C9 (counterexample): starting from an empty Identifier, the POST is
answered with id `abc123` and the follow-up GET with 404: Create returns nil
and the Identifier is empty. -/
theorem create_success_absent :
    (resourceWorkflowCreate scripted ⟨"", "wf1", "first"⟩
        ⟨[Except.ok ⟨201, idBody "abc123"⟩,
          Except.ok ⟨404, ResponseBody.stream Bytes.invalid⟩], []⟩).ret = Outcome.returnedNil
      ∧ (resourceWorkflowCreate scripted ⟨"", "wf1", "first"⟩
        ⟨[Except.ok ⟨201, idBody "abc123"⟩,
          Except.ok ⟨404, ResponseBody.stream Bytes.invalid⟩], []⟩).d.id = ""
      ∧ ¬ ((resourceWorkflowCreate scripted ⟨"", "wf1", "first"⟩
        ⟨[Except.ok ⟨201, idBody "abc123"⟩,
          Except.ok ⟨404, ResponseBody.stream Bytes.invalid⟩], []⟩).d.id ≠ "") :=
  ⟨rfl, rfl, fun h => h rfl⟩

/-- C9 (amended): every Create that returns nil got a POST response carrying a
string `id` = `i` and a response to the follow-up GET on `baseURL/i`; its final
Identifier is `i` when the status of that response is not 404 and is empty when
it is 404.  So the final Identifier is non-empty exactly when `i` is non-empty
and the GET was not answered with 404. -/
theorem create_success_identifier {σ : Type} (env : Env σ) (d : ResourceData) (w : World σ)
    (hret : (resourceWorkflowCreate env d w).ret = Outcome.returnedNil) :
    ∃ (postResp getResp : Response) (pb : Bytes) (i : String) (w1 w2 : World σ),
      httpPost env w baseURL "application/json" (attributesJSON d) = (Except.ok postResp, w1)
        ∧ postResp.Body = ResponseBody.stream pb
        ∧ pb.field "id" = some (JsonValue.str i)
        ∧ httpGet env w1 (baseURL ++ "/" ++ i) = (Except.ok getResp, w2)
        ∧ (resourceWorkflowCreate env d w).d.id = (if getResp.StatusCode = 404 then "" else i)
        ∧ ((resourceWorkflowCreate env d w).d.id ≠ "" ↔ (i ≠ "" ∧ getResp.StatusCode ≠ 404)) := by
  rcases hp : httpPost env w baseURL "application/json" (attributesJSON d) with ⟨reply, w1⟩
  cases reply with
  | error err => rw [create_of_transport_error env d w w1 err hp] at hret; cases hret
  | ok postResp =>
    cases hb : postResp.Body with
    | broken err => rw [create_of_broken_body env d w w1 postResp err hp hb] at hret; cases hret
    | stream pb =>
      have hc := create_of_body env d w w1 postResp pb hp hb
      cases ha : assertString (pb.decodedField "id") with
      | none => rw [hc, ha] at hret; cases hret
      | some i =>
        rw [ha] at hc
        simp only at hc
        have hid := ((assertString_field pb "id" i).mp ha).2
        rw [hc] at hret ⊢
        rcases hg : httpGet env w1 (baseURL ++ "/" ++ i) with ⟨greply, w2⟩
        cases greply with
        | error err =>
          rw [read_of_transport_error env (d.SetId i) w1 w2 err hg] at hret; cases hret
        | ok getResp =>
          refine ⟨postResp, getResp, pb, i, w1, w2, rfl, hb, hid, hg, ?_⟩
          by_cases hs : getResp.StatusCode = 404
          · rw [read_of_not_found env (d.SetId i) w1 w2 getResp hg hs]
            simp [hs, ResourceData.SetId]
          · cases hgb : getResp.Body with
            | broken err =>
              rw [read_of_broken_body env (d.SetId i) w1 w2 getResp err hg hs hgb] at hret
              cases hret
            | stream gb =>
              rw [read_of_body env (d.SetId i) w1 w2 getResp gb hg hs hgb]
              simp [hs, set_id, ResourceData.SetId]

theorem create_success_identifier_witness :
    (resourceWorkflowCreate echoServer ⟨"", "wf1", "first"⟩ ⟨none, []⟩).ret
        = Outcome.returnedNil
      ∧ ∃ (postResp getResp : Response) (pb : Bytes) (i : String)
        (w1 w2 : World (Option (String × String))),
        httpPost echoServer ⟨none, []⟩ baseURL "application/json"
            (attributesJSON ⟨"", "wf1", "first"⟩) = (Except.ok postResp, w1)
          ∧ postResp.Body = ResponseBody.stream pb
          ∧ pb.field "id" = some (JsonValue.str i)
          ∧ httpGet echoServer w1 (baseURL ++ "/" ++ i) = (Except.ok getResp, w2)
          ∧ (resourceWorkflowCreate echoServer ⟨"", "wf1", "first"⟩ ⟨none, []⟩).d.id
              = (if getResp.StatusCode = 404 then "" else i)
          ∧ ((resourceWorkflowCreate echoServer ⟨"", "wf1", "first"⟩ ⟨none, []⟩).d.id ≠ ""
              ↔ (i ≠ "" ∧ getResp.StatusCode ≠ 404)) :=
  ⟨rfl, create_success_identifier echoServer ⟨"", "wf1", "first"⟩ ⟨none, []⟩ rfl⟩

/-- C10: Create is not atomic.  When the POST response carries the string id
`i` (its body is a JSON text that the decoder accepts and its `id` field is the
string `i`) and the follow-up GET then fails at transport level with error
`err`, because `http.Get` returns `err` (the request is not constructed or not
sent) or because a response arrives with a status other than 404, so that its
body is read, and `ioutil.ReadAll` returns `err`, then
`resourceWorkflowCreate` returns `err` while the Identifier is `i` and name and
description are what they were before the call. -/
theorem create_not_atomic {σ : Type} (env : Env σ) (d : ResourceData)
    (w w1 w2 : World σ) (postResp : Response) (pb : Bytes) (i : String) (err : GoError)
    (hpost : httpPost env w baseURL "application/json" (attributesJSON d)
      = (Except.ok postResp, w1))
    (hpb : postResp.Body = ResponseBody.stream pb)
    (hpa : pb.accepted = true)
    (hid : pb.field "id" = some (JsonValue.str i))
    (hfail : httpGet env w1 (baseURL ++ "/" ++ i) = (Except.error err, w2)
      ∨ ∃ getResp : Response,
          httpGet env w1 (baseURL ++ "/" ++ i) = (Except.ok getResp, w2)
            ∧ getResp.StatusCode ≠ 404
            ∧ ioutilReadAll getResp.Body = Except.error err) :
    (resourceWorkflowCreate env d w).ret = Outcome.returned err
      ∧ (resourceWorkflowCreate env d w).d.id = i
      ∧ (resourceWorkflowCreate env d w).d.name = d.name
      ∧ (resourceWorkflowCreate env d w).d.description = d.description := by
  rw [create_of_body env d w w1 postResp pb hpost hpb]
  have hassert := (assertString_field pb "id" i).mpr ⟨hpa, hid⟩
  simp only [hassert]
  rcases hfail with hget | ⟨getResp, hget, hstatus, hread⟩
  · rw [read_of_transport_error env (d.SetId i) w1 w2 err hget]
    exact ⟨rfl, rfl, rfl, rfl⟩
  · have hgb : getResp.Body = ResponseBody.broken err := by
      cases hbody : getResp.Body with
      | stream data => rw [hbody] at hread; cases hread
      | broken e =>
        rw [hbody] at hread
        simp only [ioutilReadAll, Except.error.injEq] at hread
        rw [hread]
    rw [read_of_broken_body env (d.SetId i) w1 w2 getResp err hget hstatus hgb]
    exact ⟨rfl, rfl, rfl, rfl⟩

theorem create_not_atomic_witness :
    (httpGet scripted ⟨[Except.ok ⟨500, ResponseBody.broken ⟨"unexpected EOF"⟩⟩],
          [postRequest ⟨"", "wf1", "first"⟩]⟩ (baseURL ++ "/" ++ "abc123")
        = (Except.ok ⟨500, ResponseBody.broken ⟨"unexpected EOF"⟩⟩,
            ⟨[], [postRequest ⟨"", "wf1", "first"⟩, getRequest "abc123"]⟩))
      ∧ (Bytes.json (JsonValue.object [("id", JsonValue.str "abc123")])).accepted = true
      ∧ (resourceWorkflowCreate scripted ⟨"", "wf1", "first"⟩
        ⟨[Except.ok ⟨201, idBody "abc123"⟩,
          Except.ok ⟨500, ResponseBody.broken ⟨"unexpected EOF"⟩⟩], []⟩).ret
          = Outcome.returned ⟨"unexpected EOF"⟩
      ∧ (resourceWorkflowCreate scripted ⟨"", "wf1", "first"⟩
        ⟨[Except.ok ⟨201, idBody "abc123"⟩,
          Except.ok ⟨500, ResponseBody.broken ⟨"unexpected EOF"⟩⟩], []⟩).d.id = "abc123"
      ∧ (resourceWorkflowCreate scripted ⟨"", "wf1", "first"⟩
        ⟨[Except.ok ⟨201, idBody "abc123"⟩,
          Except.ok ⟨500, ResponseBody.broken ⟨"unexpected EOF"⟩⟩], []⟩).d.name = "wf1"
      ∧ (resourceWorkflowCreate scripted ⟨"", "wf1", "first"⟩
        ⟨[Except.ok ⟨201, idBody "abc123"⟩,
          Except.ok ⟨500, ResponseBody.broken ⟨"unexpected EOF"⟩⟩], []⟩).d.description
          = "first" :=
  ⟨rfl, rfl, create_not_atomic scripted ⟨"", "wf1", "first"⟩
    ⟨[Except.ok ⟨201, idBody "abc123"⟩,
      Except.ok ⟨500, ResponseBody.broken ⟨"unexpected EOF"⟩⟩], []⟩
    ⟨[Except.ok ⟨500, ResponseBody.broken ⟨"unexpected EOF"⟩⟩],
      [postRequest ⟨"", "wf1", "first"⟩]⟩
    ⟨[], [postRequest ⟨"", "wf1", "first"⟩, getRequest "abc123"]⟩
    ⟨201, idBody "abc123"⟩ (Bytes.json (JsonValue.object [("id", JsonValue.str "abc123")]))
    "abc123" ⟨"unexpected EOF"⟩ rfl rfl rfl rfl
    (Or.inr ⟨⟨500, ResponseBody.broken ⟨"unexpected EOF"⟩⟩, rfl, by decide, rfl⟩)⟩

/-! ## Update -/

/-- C6: for every local state and every response to the PUT, whatever its
status and body, `resourceWorkflowUpdate` sends the PUT to
`baseURL/Identifier` with content type JSON and the object
`{name, description}` of the local state as body, and its whole result
(returned value, final local state, requests sent) is that of
`resourceWorkflowRead` run on the unchanged local state right after the PUT;
the response to the PUT does not enter the result. -/
theorem update_is_put_then_read {σ : Type} (env : Env σ) (d : ResourceData)
    (w w1 : World σ) (putResp : Response)
    (hurl : env.parseURL (baseURL ++ "/" ++ d.id) = none)
    (hput : clientDo env w (putRequest d) = (Except.ok putResp, w1)) :
    resourceWorkflowUpdate env d w = resourceWorkflowRead env d w1
      ∧ w1.sent = w.sent ++ [putRequest d]
      ∧ w1.remote = (env.roundTrip w.remote (putRequest d)).2 := by
  rw [update_eq, hurl]
  simp only [hput]
  refine ⟨trivial, ?_, ?_⟩
  · rw [← clientDo_sent env w, hput]
  · have h := congrArg (fun r => r.2.remote) hput
    exact h.symm

theorem update_is_put_then_read_witness :
    scripted.parseURL (baseURL ++ "/" ++ "abc123") = none
      ∧ clientDo scripted
          ⟨[Except.ok ⟨500, ResponseBody.stream Bytes.invalid⟩,
            Except.ok ⟨200, recordBody "wf1" "first"⟩], []⟩
          (putRequest ⟨"abc123", "wf1-renamed", "first"⟩)
        = (Except.ok ⟨500, ResponseBody.stream Bytes.invalid⟩,
            ⟨[Except.ok ⟨200, recordBody "wf1" "first"⟩],
              [putRequest ⟨"abc123", "wf1-renamed", "first"⟩]⟩)
      ∧ (resourceWorkflowUpdate scripted ⟨"abc123", "wf1-renamed", "first"⟩
          ⟨[Except.ok ⟨500, ResponseBody.stream Bytes.invalid⟩,
            Except.ok ⟨200, recordBody "wf1" "first"⟩], []⟩
        = resourceWorkflowRead scripted ⟨"abc123", "wf1-renamed", "first"⟩
          ⟨[Except.ok ⟨200, recordBody "wf1" "first"⟩],
            [putRequest ⟨"abc123", "wf1-renamed", "first"⟩]⟩) :=
  ⟨rfl, rfl, (update_is_put_then_read scripted ⟨"abc123", "wf1-renamed", "first"⟩
    ⟨[Except.ok ⟨500, ResponseBody.stream Bytes.invalid⟩,
      Except.ok ⟨200, recordBody "wf1" "first"⟩], []⟩
    ⟨[Except.ok ⟨200, recordBody "wf1" "first"⟩],
      [putRequest ⟨"abc123", "wf1-renamed", "first"⟩]⟩
    ⟨500, ResponseBody.stream Bytes.invalid⟩ rfl rfl).1⟩

/-- C2 (counterexample): Update on Identifier `abc123`, the PUT answered with
200 and the refresh GET with 404: the Identifier afterwards is empty. -/
theorem update_clears_identifier_on_not_found :
    (resourceWorkflowUpdate scripted ⟨"abc123", "wf1", "first"⟩
        ⟨[Except.ok ⟨200, recordBody "wf1" "first"⟩,
          Except.ok ⟨404, ResponseBody.stream Bytes.invalid⟩], []⟩).d.id = ""
      ∧ (resourceWorkflowUpdate scripted ⟨"abc123", "wf1", "first"⟩
        ⟨[Except.ok ⟨200, recordBody "wf1" "first"⟩,
          Except.ok ⟨404, ResponseBody.stream Bytes.invalid⟩], []⟩).d.id
          ≠ (⟨"abc123", "wf1", "first"⟩ : ResourceData).id :=
  ⟨rfl, by decide⟩

/-- C2 (amended): Update never gives the Identifier a new value.  After
`resourceWorkflowUpdate` the Identifier is the one before the call, except
when the PUT was sent and answered and the GET of the refresh Read is answered
with status 404: then, and only then, Update returns nil with the Identifier
cleared. -/
theorem update_identifier {σ : Type} (env : Env σ) (d : ResourceData) (w : World σ) :
    ((resourceWorkflowUpdate env d w).d.id = d.id
      ∨ ((resourceWorkflowUpdate env d w).d.id = ""
          ∧ (resourceWorkflowUpdate env d w).ret = Outcome.returnedNil
          ∧ ∃ (putResp getResp : Response) (w1 w2 : World σ),
              clientDo env w (putRequest d) = (Except.ok putResp, w1)
                ∧ httpGet env w1 (baseURL ++ "/" ++ d.id) = (Except.ok getResp, w2)
                ∧ getResp.StatusCode = 404))
      ∧ ∀ (putResp getResp : Response) (w1 w2 : World σ),
          env.parseURL (baseURL ++ "/" ++ d.id) = none →
          clientDo env w (putRequest d) = (Except.ok putResp, w1) →
          httpGet env w1 (baseURL ++ "/" ++ d.id) = (Except.ok getResp, w2) →
          getResp.StatusCode = 404 →
          (resourceWorkflowUpdate env d w).d.id = ""
            ∧ (resourceWorkflowUpdate env d w).ret = Outcome.returnedNil := by
  constructor
  · rw [update_eq]
    cases env.parseURL (baseURL ++ "/" ++ d.id) with
    | some err => exact Or.inl rfl
    | none =>
      rcases hput : clientDo env w (putRequest d) with ⟨reply, w1⟩
      cases reply with
      | error err => exact Or.inl rfl
      | ok putResp =>
        simp only
        rcases read_id_cases env d w1 with h | ⟨h1, h2, w2, getResp, hget, hs⟩
        · exact Or.inl h
        · exact Or.inr ⟨h1, h2, putResp, getResp, w1, w2, rfl, hget, hs⟩
  · intro putResp getResp w1 w2 hurl hput hget hs
    rw [update_eq, hurl]
    simp only [hput]
    rw [read_of_not_found env d w1 w2 getResp hget hs]
    exact ⟨rfl, rfl⟩

theorem update_identifier_witness :
    (resourceWorkflowUpdate scripted ⟨"abc123", "wf1-renamed", "first"⟩
        ⟨[Except.ok ⟨200, recordBody "wf1-renamed" "first"⟩,
          Except.ok ⟨404, ResponseBody.stream Bytes.invalid⟩], []⟩).d.id = ""
      ∧ (resourceWorkflowUpdate scripted ⟨"abc123", "wf1-renamed", "first"⟩
        ⟨[Except.ok ⟨200, recordBody "wf1-renamed" "first"⟩,
          Except.ok ⟨404, ResponseBody.stream Bytes.invalid⟩], []⟩).ret
          = Outcome.returnedNil :=
  (update_identifier scripted ⟨"abc123", "wf1-renamed", "first"⟩
    ⟨[Except.ok ⟨200, recordBody "wf1-renamed" "first"⟩,
      Except.ok ⟨404, ResponseBody.stream Bytes.invalid⟩], []⟩).2
    ⟨200, recordBody "wf1-renamed" "first"⟩ ⟨404, ResponseBody.stream Bytes.invalid⟩
    ⟨[Except.ok ⟨404, ResponseBody.stream Bytes.invalid⟩],
      [putRequest ⟨"abc123", "wf1-renamed", "first"⟩]⟩
    ⟨[], [putRequest ⟨"abc123", "wf1-renamed", "first"⟩, getRequest "abc123"]⟩
    rfl rfl rfl rfl

/-! ## Delete -/

/-- C3: `resourceWorkflowDelete` sends nothing but one DELETE to
`baseURL/Identifier` (nothing at all when that request cannot be
constructed); it returns an error if and only if the request cannot be
constructed or sending it fails; and whenever a response is received, whatever
its status and body, it returns nil with the Identifier empty and name and
description unchanged. -/
theorem delete_clears_identifier {σ : Type} (env : Env σ) (d : ResourceData) (w : World σ) :
    (resourceWorkflowDelete env d w).w.sent
        = w.sent ++ (match env.parseURL (baseURL ++ "/" ++ d.id) with
                     | none => [deleteRequest d]
                     | some _ => [])
      ∧ ((∃ err, (resourceWorkflowDelete env d w).ret = Outcome.returned err)
          ↔ (env.parseURL (baseURL ++ "/" ++ d.id) ≠ none
              ∨ ∃ err, (clientDo env w (deleteRequest d)).1 = Except.error err))
      ∧ (resourceWorkflowDelete env d w).ret ≠ Outcome.panicked
      ∧ ∀ resp : Response,
          env.parseURL (baseURL ++ "/" ++ d.id) = none →
          (clientDo env w (deleteRequest d)).1 = Except.ok resp →
          (resourceWorkflowDelete env d w).ret = Outcome.returnedNil
            ∧ (resourceWorkflowDelete env d w).d = ⟨"", d.name, d.description⟩ := by
  rw [delete_eq]
  cases hurl : env.parseURL (baseURL ++ "/" ++ d.id) with
  | some perr => simp
  | none =>
    rcases hdo : clientDo env w (deleteRequest d) with ⟨reply, w1⟩
    have hsent : w1.sent = w.sent ++ [deleteRequest d] := by
      rw [← clientDo_sent env w, hdo]
    cases reply with
    | error err => simp [hsent]
    | ok resp => simp [hsent, ResourceData.SetId]

theorem delete_clears_identifier_witness :
    scripted.parseURL (baseURL ++ "/" ++ "abc123") = none
      ∧ (clientDo scripted ⟨[Except.ok ⟨500, ResponseBody.broken ⟨"unexpected EOF"⟩⟩], []⟩
          (deleteRequest ⟨"abc123", "wf1", "first"⟩)).1
          = Except.ok ⟨500, ResponseBody.broken ⟨"unexpected EOF"⟩⟩
      ∧ (resourceWorkflowDelete scripted ⟨"abc123", "wf1", "first"⟩
          ⟨[Except.ok ⟨500, ResponseBody.broken ⟨"unexpected EOF"⟩⟩], []⟩).ret
          = Outcome.returnedNil
      ∧ (resourceWorkflowDelete scripted ⟨"abc123", "wf1", "first"⟩
          ⟨[Except.ok ⟨500, ResponseBody.broken ⟨"unexpected EOF"⟩⟩], []⟩).d
          = ⟨"", "wf1", "first"⟩ :=
  ⟨rfl, rfl, (delete_clears_identifier scripted ⟨"abc123", "wf1", "first"⟩
    ⟨[Except.ok ⟨500, ResponseBody.broken ⟨"unexpected EOF"⟩⟩], []⟩).2.2.2
    ⟨500, ResponseBody.broken ⟨"unexpected EOF"⟩⟩ rfl rfl⟩

/-! ## Malformed responses -/

/-- C8 (counterexample): the GET of a Read is answered with status 200 and a
body that is not valid JSON: Read returns nil. -/
theorem read_malformed_succeeds :
    (httpGet scripted ⟨[Except.ok ⟨200, ResponseBody.stream Bytes.invalid⟩], []⟩
        (baseURL ++ "/" ++ "abc123")).1
        = Except.ok ⟨200, ResponseBody.stream Bytes.invalid⟩
      ∧ (resourceWorkflowRead scripted ⟨"abc123", "wf1", "first"⟩
        ⟨[Except.ok ⟨200, ResponseBody.stream Bytes.invalid⟩], []⟩).ret
          = Outcome.returnedNil :=
  ⟨rfl, rfl⟩

/-- C8 (amended): a malformed response makes Create fail but not Read.  A
body without a string field `id` (not valid JSON, no `id`, or an `id` of
another type) in the response to the POST makes `resourceWorkflowCreate`
panic; `resourceWorkflowRead` makes no type assertion and drops the decoding
error, so on every non-404 response whose body can be read, valid JSON or not,
with or without `name` and `description` fields, it returns nil. -/
theorem malformed_response_outcomes {σ : Type} (env : Env σ) (d : ResourceData)
    (w w1 : World σ) (resp : Response) (b : Bytes)
    (hbody : resp.Body = ResponseBody.stream b) :
    (httpPost env w baseURL "application/json" (attributesJSON d) = (Except.ok resp, w1) →
        (∀ s : String, b.field "id" ≠ some (JsonValue.str s)) →
        (resourceWorkflowCreate env d w).ret = Outcome.panicked)
      ∧ (httpGet env w (baseURL ++ "/" ++ d.id) = (Except.ok resp, w1) →
        resp.StatusCode ≠ 404 →
        (resourceWorkflowRead env d w).ret = Outcome.returnedNil) := by
  constructor
  · intro hpost hid
    rw [create_of_body env d w w1 resp b hpost hbody]
    cases hassert : assertString (b.decodedField "id") with
    | some s => exact absurd ((assertString_field b "id" s).mp hassert).2 (hid s)
    | none => rfl
  · intro hget hstatus
    rw [read_of_body env d w w1 resp b hget hstatus hbody]

theorem malformed_response_outcomes_witness :
    (resourceWorkflowCreate scripted ⟨"", "wf1", "first"⟩
        ⟨[Except.ok ⟨200, ResponseBody.stream (Bytes.json (JsonValue.object
          [("id", JsonValue.number "7")]))⟩], []⟩).ret = Outcome.panicked
      ∧ (resourceWorkflowRead scripted ⟨"", "wf1", "first"⟩
        ⟨[Except.ok ⟨200, ResponseBody.stream (Bytes.json (JsonValue.object
          [("id", JsonValue.number "7")]))⟩], []⟩).ret = Outcome.returnedNil :=
  ⟨(malformed_response_outcomes scripted ⟨"", "wf1", "first"⟩
      ⟨[Except.ok ⟨200, ResponseBody.stream (Bytes.json (JsonValue.object
        [("id", JsonValue.number "7")]))⟩], []⟩
      ⟨[], [postRequest ⟨"", "wf1", "first"⟩]⟩
      ⟨200, ResponseBody.stream (Bytes.json (JsonValue.object
        [("id", JsonValue.number "7")]))⟩
      (Bytes.json (JsonValue.object [("id", JsonValue.number "7")])) rfl).1 rfl
      (fun s h => by simp [Bytes.field, lastMember] at h),
    (malformed_response_outcomes scripted ⟨"", "wf1", "first"⟩
      ⟨[Except.ok ⟨200, ResponseBody.stream (Bytes.json (JsonValue.object
        [("id", JsonValue.number "7")]))⟩], []⟩
      ⟨[], [getRequest ""]⟩
      ⟨200, ResponseBody.stream (Bytes.json (JsonValue.object
        [("id", JsonValue.number "7")]))⟩
      (Bytes.json (JsonValue.object [("id", JsonValue.number "7")])) rfl).2 rfl
      (by decide)⟩

end Pipedream
